import Mathlib

/-!
Verification of the `hepl` interactive shell (src/hepl/main.py).

The embedding models the command-dispatch subsystem and the REPL loop:
strings are Lean `String`s processed over their character lists, the
line stream fed to `input()` is a `List String` (exhaustion of the list
models `EOFError`), and Python exceptions are the explicit `PyExc` type
threaded through `Except`.  The external Hyper engine collaborator
(`tableauhyperapi`) is modelled at its interface boundary by the `Conn`
structure; column values are modelled as the text `str` produces for them.
-/

namespace Hepl

/-- The exception classes that can arise inside the REPL loop body.
`heplParse` models `DotCommandParserError` (a `HeplException`), `hyper`
models `HyperException` (carrying its `main_message`), `eof` models
`EOFError`, `interrupt` models `KeyboardInterrupt`, and `typeError`
models Python's `TypeError` (raised when a non-callable is called). -/
inductive PyExc where
  | heplParse (msg : String)
  | hyper (msg : String)
  | eof
  | interrupt
  | typeError
deriving DecidableEq, Repr

/-- A result container: the rows it yields, plus an optional exception the
row iterator raises after yielding them (a live engine cursor can fail
mid-stream; `HeplResults` rows are in memory and never do). -/
structure ResultContainer where
  rows : List (List String)
  midErr : Option PyExc
deriving DecidableEq, Repr

/-- The engine connection, modelled at the interface boundary of §6:
catalog lookups and query execution.  `tableDef t = none` models the
catalog raising a `HyperException` for an unknown table; `query` returns
either an engine error message or a result container. -/
structure Conn where
  schemas : List String
  tables : String → List String
  tableDef : String → Option (List (String × String))
  query : String → Except String ResultContainer

/-! ### Python string primitives used by the source -/

/-- `line.lstrip()`: drop leading whitespace. -/
def pyLstrip (s : String) : String :=
  String.mk (s.toList.dropWhile Char.isWhitespace)

/-- `command.startswith(".")`: the first character is the dot marker. -/
def startsWithDot (s : String) : Bool :=
  match s.toList with
  | [] => false
  | c :: _ => c = '.'

/-- `line.lstrip().startswith(".")` as used in `get_command`. -/
def isDotLine (line : String) : Bool :=
  match line.toList.dropWhile Char.isWhitespace with
  | [] => false
  | c :: _ => c = '.'

/-- `line.rstrip().endswith(";")`: the last non-whitespace character is the
statement terminator. -/
def isTerminated (line : String) : Bool :=
  match line.toList.reverse.dropWhile Char.isWhitespace with
  | [] => false
  | c :: _ => c = ';'

/-- `command.lstrip()[1:]` from `handle_dot_command`: strip leading
whitespace and the leading dot marker. -/
def dotPayload (command : String) : String :=
  String.mk ((command.toList.dropWhile Char.isWhitespace).drop 1)

/-- Helper for `pySplit`: walks the characters, `cur` is the (reversed)
token being built. -/
def wsTokensAux : List Char → List Char → List String
  | [], cur => if cur = [] then [] else [String.mk cur.reverse]
  | c :: cs, cur =>
    if Char.isWhitespace c then
      if cur = [] then wsTokensAux cs []
      else String.mk cur.reverse :: wsTokensAux cs []
    else wsTokensAux cs (c :: cur)

/-- `s.split()` with no arguments: split on whitespace runs, no empty
tokens; `"".split()` is `[]`. -/
def pySplit (s : String) : List String :=
  wsTokensAux s.toList []

/-- `sep.join(xs)`. -/
def joinWith (sep : String) : List String → String
  | [] => ""
  | [x] => x
  | x :: y :: xs => x ++ sep ++ joinWith sep (y :: xs)

/-- `"\n".join(buffer)` from `get_command`. -/
def joinLines : List String → String := joinWith "\n"

/-! ### Command registry (`dot_command` decorator) -/

/-- A positional parameter derived from a handler's signature (the
connection parameter is skipped): its name and, when the Python parameter
has a default, that default.  All declared scalar types in the source are
`str`, whose argparse conversion is the identity, so type tags carry no
further content in the model. -/
structure ParamSpec where
  pname : String
  dflt : Option String
deriving DecidableEq, Repr

/-- A registered command: its derived parameter list and its handler,
invoked with the bound argument values in declaration order
(`make_dot_command`). -/
structure Command where
  params : List ParamSpec
  run : Conn → List String → Except PyExc ResultContainer

/-- `dot_command.commands[name] = func`: Python dict assignment — replace
the value in place when the key exists (keeping its position), append
otherwise. -/
def registerCmd {α : Type} : List (String × α) → String → α → List (String × α)
  | [], n, f => [(n, f)]
  | (k, g) :: rest, n, f =>
    if k = n then (k, f) :: rest else (k, g) :: registerCmd rest n f

/-- Dict key lookup. -/
def lookupCmd {α : Type} : List (String × α) → String → Option α
  | [], _ => none
  | (k, c) :: rest, n => if k = n then some c else lookupCmd rest n

/-- `dot_schemas`: one single-column row per schema name. -/
def dotSchemas (conn : Conn) : Except PyExc ResultContainer :=
  .ok ⟨conn.schemas.map (fun s => [s]), none⟩

/-- `dot_tables`: one single-column row per table of `schema`
(`schema: str = "public"` in the source). -/
def dotTables (conn : Conn) (schema : String) : Except PyExc ResultContainer :=
  .ok ⟨(conn.tables schema).map (fun t => [t]), none⟩

/-- `dot_schema`: rows `(c.name, c.type)` of the table definition; an
unknown table makes the catalog raise a `HyperException`. -/
def dotSchema (conn : Conn) (table : String) : Except PyExc ResultContainer :=
  match conn.tableDef table with
  | some cols => .ok ⟨cols.map (fun c => [c.1, c.2]), none⟩
  | none => .error (.hyper ("table " ++ table ++ " does not exist"))

/-- `dot_exit`: `raise EOFError  # simulate ^D`. -/
def dotExit (_ : Conn) : Except PyExc ResultContainer :=
  .error .eof

/-- The `schemas` command: no parameters beyond the connection. -/
def schemasCmd : Command :=
  ⟨[], fun conn _ => dotSchemas conn⟩

/-- The `tables` command: one optional parameter `schema` defaulting to
`"public"`. -/
def tablesCmd : Command :=
  ⟨[⟨"schema", some "public"⟩], fun conn args => dotTables conn (args.headD "public")⟩

/-- The `schema` command: one required parameter `table`. -/
def schemaCmd : Command :=
  ⟨[⟨"table", none⟩], fun conn args => dotSchema conn (args.headD "")⟩

/-- The `exit` command: no parameters beyond the connection. -/
def exitCmd : Command :=
  ⟨[], fun conn _ => dotExit conn⟩

/-- `dot_command.commands` after the four decorator registrations run, in
source order: `schemas`, `tables`, `schema`, `exit`. -/
def builtinRegistry : List (String × Command) :=
  registerCmd (registerCmd (registerCmd (registerCmd [] "schemas" schemasCmd)
    "tables" tablesCmd) "schema" schemaCmd) "exit" exitCmd

/-- The names present in the registry, in registration order. -/
def registeredNames : List String :=
  builtinRegistry.map Prod.fst

/-! ### Parser factory (`make_dot_command_parser`) -/

/-- Python string `<`: lexicographic on code points. -/
def strLtL : List Char → List Char → Bool
  | [], [] => false
  | [], _ :: _ => true
  | _ :: _, [] => false
  | a :: as, b :: bs =>
    if a.toNat < b.toNat then true
    else if b.toNat < a.toNat then false
    else strLtL as bs

/-- Python string `<=`. -/
def strLe (a b : String) : Bool :=
  ! strLtL b.toList a.toList

/-- Insert one entry into a key-sorted list. -/
def insortKey {α : Type} (x : String × α) : List (String × α) → List (String × α)
  | [] => [x]
  | y :: ys => if strLe x.1 y.1 then x :: y :: ys else y :: insortKey x ys

/-- `sorted(registered_commands.items())`: keys are unique, so sorting the
items is sorting by key. -/
def sortByKey {α : Type} : List (String × α) → List (String × α)
  | [] => []
  | x :: xs => insortKey x (sortByKey xs)

/-- The built argparse parser: the sub-parser table in insertion order
(used for dispatch) and the sub-command names as they appear in the
generated help text (`{...}` choices list, insertion order). -/
structure DotParser where
  cmds : List (String × Command)
  subNames : List String

/-- The body of `make_dot_command_parser`: one sub-parser per registered
command in sorted-name order, then the built-in `help` sub-parser added
last. -/
def buildParser (reg : List (String × Command)) : DotParser :=
  ⟨sortByKey reg, (sortByKey reg).map Prod.fst ++ ["help"]⟩

/-- The command names the generated help output enumerates. -/
def helpChoices (p : DotParser) : List String :=
  p.subNames

/-- The parser `make_dot_command_parser()` builds. -/
def makeDotCommandParser : DotParser :=
  buildParser builtinRegistry

/-- The `lru_cache` wrapper on `make_dot_command_parser`: the cache cell is
explicit state; a hit returns the stored parser unchanged, a miss builds
and stores it. -/
def cachedMakeParser : Option DotParser → DotParser × Option DotParser
  | some p => (p, some p)
  | none => (makeDotCommandParser, some makeDotCommandParser)

/-- Bind the argument tokens of a sub-parser invocation to its parameter
list: a missing token for a defaulted (`nargs="?"`) parameter binds the
default, a missing token for a required parameter or a leftover token is
an argparse error, raised as `DotCommandParserError`. -/
def bindArgs : List ParamSpec → List String → Except PyExc (List String)
  | [], [] => .ok []
  | [], _ :: _ => .error (.heplParse "unrecognized arguments")
  | p :: ps, [] =>
    match p.dflt with
    | some d => (bindArgs ps []).map (fun rest => d :: rest)
    | none => .error (.heplParse ("the following arguments are required: " ++ p.pname))
  | _ :: ps, t :: ts => (bindArgs ps ts).map (fun rest => t :: rest)

/-- `parser.parse_args(tokens)` followed by `args.func(args, conn)`.  With
no tokens the sub-parsers positional is absent, `func` keeps its
`set_defaults` value `None`, and calling it raises `TypeError`.  An
unknown first token is an argparse choice error (`DotCommandParserError`);
`help` prints the usage text and returns empty results. -/
def parserDispatch (p : DotParser) (conn : Conn) (tokens : List String) :
    Except PyExc ResultContainer :=
  match tokens with
  | [] => .error .typeError
  | name :: rest =>
    if name = "help" then
      if rest = [] then .ok ⟨[], none⟩
      else .error (.heplParse "unrecognized arguments")
    else
      match lookupCmd p.cmds name with
      | none => .error (.heplParse ("invalid choice: " ++ name))
      | some cmd =>
        match bindArgs cmd.params rest with
        | .error e => .error e
        | .ok args => cmd.run conn args

/-- `handle_dot_command`: strip leading whitespace and the dot, tokenize
with `split()`, parse and invoke. -/
def handleDotCommand (conn : Conn) (command : String) : Except PyExc ResultContainer :=
  parserDispatch makeDotCommandParser conn (pySplit (dotPayload command))

/-- `get_results`: route dot-marked units to the dispatcher, everything
else verbatim to the engine; an engine error is a `HyperException`. -/
def getResults (conn : Conn) (command : String) : Except PyExc ResultContainer :=
  if startsWithDot command then handleDotCommand conn command
  else
    match conn.query command with
    | .ok r => .ok r
    | .error msg => .error (.hyper msg)

/-! ### Input accumulator (`get_command`) -/

/-- The loop body of `get_command` over the remaining line stream.
`isFirst` is `linenum == 0`.  Returns the accumulated buffer and the
unread remainder of the stream, or `none` when the stream is exhausted
(`input()` raises `EOFError`).  An empty line breaks before being
appended; a first line that `lstrip`-starts with the dot marker breaks
after being appended; a line that `rstrip`-ends with `;` breaks after
being appended. -/
def getCommandAux : List String → Bool → Option (List String × List String)
  | [], _ => none
  | line :: rest, isFirst =>
    if line = "" then some ([], rest)
    else if isFirst && isDotLine line then some ([line], rest)
    else if isTerminated line then some ([line], rest)
    else
      match getCommandAux rest false with
      | none => none
      | some (buf, rem) => some (line :: buf, rem)

/-- `get_command`: one logical command unit (`"\n".join(buffer)`) plus the
unread remainder, or `none` on end-of-input. -/
def getCommand (input : List String) : Option (String × List String) :=
  match getCommandAux input true with
  | none => none
  | some (buf, rem) => some (joinLines buf, rem)

/-! ### REPL driver (`hyper_repl`) -/

/-- What one iteration of the `while True` loop does to control flow. -/
inductive StepOutcome where
  | next
  | term
  | crash (e : PyExc)
deriving DecidableEq, Repr

/-- Observable effect of one loop iteration: control-flow outcome, unread
remainder of the input stream, text printed to stdout, and how many times
a result container's scope-exit (`close`) ran. -/
structure StepResult where
  outcome : StepOutcome
  rest : List String
  out : String
  closes : Nat
deriving DecidableEq, Repr

/-- The loop's `except` clauses: `KeyboardInterrupt`/`EOFError` print a
newline and break; `HeplException` prints `str(e)`; `HyperException`
prints `e.main_message`; anything else escapes the loop. -/
def handleLoopExc : PyExc → StepOutcome × String
  | .eof => (.term, "\n")
  | .interrupt => (.term, "\n")
  | .heplParse msg => (.next, msg ++ "\n")
  | .hyper msg => (.next, msg ++ "\n")
  | .typeError => (.crash .typeError, "")

/-- `show_results`: `print(col_sep.join(str(x) for x in row), end=row_sep)`
for each row — one pipe-joined line per row, no header. -/
def showRows : List (List String) → String
  | [] => ""
  | row :: rs => joinWith "|" row ++ "\n" ++ showRows rs

/-- One iteration of `hyper_repl`'s loop body on a given input stream.
The `with ... as results:` block guarantees exactly one `close` on every
exit path once a container was produced, including when iteration raises
`midErr` mid-stream; no container, no close. -/
def replStep (conn : Conn) (input : List String) : StepResult :=
  match getCommand input with
  | none => ⟨.term, [], "\n", 0⟩
  | some (command, rest) =>
    if command = "" then ⟨.next, rest, "", 0⟩
    else
      match getResults conn command with
      | .error e =>
        let os := handleLoopExc e
        ⟨os.1, rest, os.2, 0⟩
      | .ok r =>
        let printed := showRows r.rows
        match r.midErr with
        | none => ⟨.next, rest, printed, 1⟩
        | some e =>
          let os := handleLoopExc e
          ⟨os.1, rest, printed ++ os.2, 1⟩

/-! ### Spec-side accumulator, for comparison with `get_command` -/

/-- Modelled from the spec: "keep appending subsequent lines ... until a
line whose trailing content (after trimming trailing whitespace) ends with
the statement terminator character" — accumulate every line up to and
including the first terminated one; `none` when no terminated line
appears. -/
def specAccumLines : List String → Option (List String)
  | [] => none
  | l :: ls =>
    if isTerminated l then some [l]
    else (specAccumLines ls).map (fun b => l :: b)

/-- The unit the spec's accumulation policy would return: the accumulated
lines joined by newlines. -/
def specAccumUnit (lines : List String) : Option String :=
  (specAccumLines lines).map joinLines

/-! ### Concrete connections used as witnesses -/

/-- A connection whose engine result raises a `HyperException` mid-stream,
after yielding one row. -/
def connMid : Conn :=
  ⟨[], fun _ => [], fun _ => none,
    fun _ => .ok ⟨[["x"]], some (.hyper "connection lost")⟩⟩

/-- A connection whose catalog holds a table `orders` with columns
`(id, int)` and `(total, double)`. -/
def connOrders : Conn :=
  ⟨[], fun _ => [],
    fun t => if t = "orders" then some [("id", "int"), ("total", "double")] else none,
    fun _ => .error "no engine"⟩

/-! ### Theorems -/

/-- Helper for the accumulation theorem: on continuation reads
(`linenum > 0`), when every line up to and including the first terminated
one is non-empty, `get_command`'s loop collects exactly those lines. -/
theorem getCommandAux_of_specAccum (lines : List String) :
    ∀ buf, specAccumLines lines = some buf → (∀ x ∈ buf, x ≠ "") →
      getCommandAux lines false = some (buf, lines.drop buf.length) := by
  induction lines with
  | nil =>
    intro buf hspec _
    simp [specAccumLines] at hspec
  | cons l ls ih =>
    intro buf hspec hne
    by_cases ht : isTerminated l
    · rw [specAccumLines, if_pos ht] at hspec
      obtain rfl : [l] = buf := Option.some_inj.mp hspec
      have hl : l ≠ "" := hne l (by simp)
      rw [getCommandAux, if_neg hl]
      simp [ht]
    · rw [specAccumLines, if_neg ht] at hspec
      obtain ⟨b, hb, hbuf⟩ := Option.map_eq_some'.mp hspec
      subst hbuf
      have hl : l ≠ "" := hne l (by simp)
      have hrec := ih b hb (fun x hx => hne x (by simp [hx]))
      rw [getCommandAux, if_neg hl]
      simp [ht, hrec]

/-- C2 counterexample: on the lines `select`, `` (empty), `1;` the first
line is non-empty and not a dot line, yet `get_command` stops at the empty
continuation line and returns `"select"`, while the claimed policy
(accumulate until a `;`-terminated line) would return `"select\n\n1;"`. -/
theorem getCommand_empty_continuation_cex :
    ("select" : String) ≠ "" ∧ isDotLine "select" = false ∧
    getCommand ["select", "", "1;"] = some ("select", ["1;"]) ∧
    specAccumUnit ["select", "", "1;"] = some "select\n\n1;" ∧
    ("select" : String) ≠ "select\n\n1;" :=
  ⟨by decide, rfl, rfl, rfl, by decide⟩

/-- C2 (amended): for a first line that is non-empty and not a dot line,
provided every line up to and including the first `;`-terminated line is
non-empty, `get_command` accumulates exactly those lines and returns them
joined by newlines, consuming exactly that prefix of the stream.  (The
unamended claim fails because an empty continuation line also stops the
accumulation early.) -/
theorem getCommand_accumulates_until_terminator (l : String) (ls buf : List String)
    (h1 : l ≠ "") (h2 : isDotLine l = false)
    (hspec : specAccumLines (l :: ls) = some buf)
    (hne : ∀ x ∈ buf, x ≠ "") :
    getCommand (l :: ls) = some (joinLines buf, (l :: ls).drop buf.length) := by
  by_cases ht : isTerminated l
  · rw [specAccumLines, if_pos ht] at hspec
    obtain rfl : [l] = buf := Option.some_inj.mp hspec
    rw [getCommand, getCommandAux, if_neg h1]
    simp [h2, ht]
  · rw [specAccumLines, if_neg ht] at hspec
    obtain ⟨b, hb, hbuf⟩ := Option.map_eq_some'.mp hspec
    subst hbuf
    have hrec := getCommandAux_of_specAccum ls b hb (fun x hx => hne x (by simp [hx]))
    rw [getCommand, getCommandAux, if_neg h1]
    simp [h2, ht, hrec]

/-- C2 witness: the lines `select` then `1;` accumulate into the single
unit `"select\n1;"`, as the claim's example states. -/
theorem getCommand_accumulates_witness :
    getCommand ["select", "1;"] = some ("select\n1;", []) := by
  have h := getCommand_accumulates_until_terminator "select" ["1;"] ["select", "1;"]
    (by decide) (by decide) (by decide) (by decide)
  simpa [joinLines, joinWith] using h

/-- C1: the propagation claim fails on the code.  Dispatching the
administrative line consisting of only the marker character `.` strips to
an empty token list; argparse then leaves `func` at its `set_defaults`
value `None`, and `args.func(args, conn)` raises `TypeError`, which none
of the loop's `except` clauses (`KeyboardInterrupt`/`EOFError`,
`HeplException`, `HyperException`) catches — the exception escapes the
loop body instead of being printed, for every connection. -/
theorem dot_only_line_crashes_loop (conn : Conn) :
    replStep conn ["."] = ⟨.crash .typeError, [], "", 0⟩ := rfl

/-- C3 counterexample: the generated help output lists the sub-parser
choices `exit, schema, schemas, tables, help` — the built-in `help` entry
is appended after the sorted registered names, so the listing contains a
name that is not in the registry and is not in lexical order (`help`
sorts before `schema` but appears last). -/
theorem helpChoices_cex :
    helpChoices makeDotCommandParser = ["exit", "schema", "schemas", "tables", "help"] ∧
    registeredNames = ["schemas", "tables", "schema", "exit"] ∧
    "help" ∈ helpChoices makeDotCommandParser ∧ "help" ∉ registeredNames := by
  refine ⟨rfl, rfl, ?_, ?_⟩ <;> decide

/-- C3 (amended): the help output enumerates the registered command names
in lexical order, followed by the built-in `help` entry appended last;
there are no duplicate sub-parsers. -/
theorem helpChoices_sorted_then_help :
    helpChoices makeDotCommandParser = (sortByKey builtinRegistry).map Prod.fst ++ ["help"] ∧
    (sortByKey builtinRegistry).map Prod.fst = ["exit", "schema", "schemas", "tables"] ∧
    List.Nodup (helpChoices makeDotCommandParser) := by
  refine ⟨rfl, rfl, ?_⟩
  decide

/-- C4: dispatching `tables` with no schema token and dispatching it with
the explicit token `public` bind the same argument and produce the same
result — the parameter's declared default `"public"` is bound when the
token is omitted. -/
theorem tables_default_public (conn : Conn) :
    handleDotCommand conn ".tables" = handleDotCommand conn ".tables public" ∧
    handleDotCommand conn ".tables" = dotTables conn "public" :=
  ⟨rfl, rfl⟩

/-- C5: the memoized parser build is idempotent — starting from the empty
cache, a second call returns the identical parser and leaves the cache
unchanged, and the parser's sub-command set has no duplicates. -/
theorem cachedMakeParser_idempotent :
    (cachedMakeParser (cachedMakeParser none).2).1 = (cachedMakeParser none).1 ∧
    (cachedMakeParser (cachedMakeParser none).2).2 = (cachedMakeParser none).2 ∧
    List.Nodup ((cachedMakeParser none).1.subNames) := by
  refine ⟨rfl, rfl, ?_⟩
  decide

/-- C6: a first line that is non-empty and `lstrip`-starts with the dot
marker is returned as the whole unit immediately — the remainder of the
stream is left unread, whether or not the line contains a terminator. -/
theorem dot_line_single_read (line : String) (rest : List String)
    (h1 : line ≠ "") (h2 : isDotLine line = true) :
    getCommand (line :: rest) = some (line, rest) := by
  rw [getCommand, getCommandAux, if_neg h1]
  simp [h2, joinLines, joinWith]

/-- C6 witness: the dot line `.help` (no terminator) is returned alone,
leaving the following line unread. -/
theorem dot_line_single_read_witness :
    getCommand [".help", "select 1;"] = some (".help", ["select 1;"]) :=
  dot_line_single_read ".help" ["select 1;"] (by decide) (by decide)

/-- C7: whenever a dispatched unit produces a result container, the
container's scope-exit (`close`) runs exactly once in that iteration — on
the normal path and on the path where row iteration raises mid-stream. -/
theorem close_called_once (conn : Conn) (input : List String) (command : String)
    (rest : List String) (r : ResultContainer)
    (hg : getCommand input = some (command, rest)) (hc : command ≠ "")
    (hr : getResults conn command = .ok r) :
    (replStep conn input).closes = 1 := by
  simp only [replStep, hg, hr, if_neg hc]
  cases r.midErr <;> rfl

/-- C7 witness: a query whose result iterator raises a `HyperException`
mid-stream still gets its container closed exactly once. -/
theorem close_called_once_witness :
    (replStep connMid ["boom;"]).closes = 1 :=
  close_called_once connMid ["boom;"] "boom;" []
    ⟨[["x"]], some (.hyper "connection lost")⟩ rfl (by decide) rfl

/-- C8: on any connection whose catalog gives table `orders` the columns
`(id, int)` and `(total, double)`, the unit `.schema orders` prints
exactly the two pipe-joined lines `id|int` and `total|double` — one line
per row, no header. -/
theorem describe_table_pipe_lines (conn : Conn)
    (h : conn.tableDef "orders" = some [("id", "int"), ("total", "double")]) :
    (replStep conn [".schema orders"]).out = "id|int\ntotal|double\n" := by
  have hres : getResults conn ".schema orders" =
      .ok ⟨[["id", "int"], ["total", "double"]], none⟩ := by
    show dotSchema conn "orders" = _
    rw [dotSchema, h]
    rfl
  have hg : getCommand [".schema orders"] = some (".schema orders", []) := rfl
  simp only [replStep, hg, hres, if_neg (show ¬(".schema orders" = "") by decide)]
  rfl

/-- C8 witness: the scenario run on the concrete `orders` catalog. -/
theorem describe_table_pipe_lines_witness :
    (replStep connOrders [".schema orders"]).out = "id|int\ntotal|double\n" :=
  describe_table_pipe_lines connOrders rfl

/-- C9: an empty first line yields the empty unit, and the loop iteration
treats it as a no-op — it goes back to prompting with nothing printed,
nothing dispatched, no container acquired, and no exception. -/
theorem empty_line_noop (conn : Conn) (rest : List String) :
    replStep conn ("" :: rest) = ⟨.next, rest, "", 0⟩ ∧
    getCommand ("" :: rest) = some ("", rest) :=
  ⟨rfl, rfl⟩

/-- C10: registering a second handler under an already-registered name
silently replaces the first — the doubly-registered dict equals the dict
with only the last registration (so the generated dispatcher sees only
the last handler), and lookup returns the last handler; `registerCmd` is
total, so no error is raised at registration time. -/
theorem register_last_wins {α : Type} (reg : List (String × α)) (n : String) (f g : α) :
    registerCmd (registerCmd reg n f) n g = registerCmd reg n g ∧
    lookupCmd (registerCmd reg n g) n = some g := by
  constructor
  · induction reg with
    | nil => simp [registerCmd]
    | cons p rest ih =>
      obtain ⟨k, h⟩ := p
      by_cases hk : k = n
      · simp [registerCmd, hk]
      · simp [registerCmd, hk, ih]
  · induction reg with
    | nil => simp [registerCmd, lookupCmd]
    | cons p rest ih =>
      obtain ⟨k, h⟩ := p
      by_cases hk : k = n
      · simp [registerCmd, lookupCmd, hk]
      · simp [registerCmd, lookupCmd, hk, ih]

end Hepl
